import Mathlib

/-!
Shallow embedding of the structural-matching / numeric-reduction core of the
o-atomspace repository, together with proofs of the specification claims.

Scalars: the C++ code computes over `double`, but every property proved here
(broadcast lengths, flavor propagation, null-result behaviour, loop
termination shape) is independent of scalar arithmetic — the scalar function
is always a parameter.  We therefore model `double` by an abstract discrete
carrier, `Int`, keeping every definition executable and decidable.
-/

abbrev Double := Int

/-- Values and atoms, as needed by `NumericFunctionLink.cc`:
  * `numberNode xs`  — a NumberNode atom carrying the numeric vector `xs`;
  * `floatValue xs`  — a FloatValue (not an atom) carrying the vector `xs`;
  * `setLink oset`   — a SetLink atom with outgoing set `oset`;
  * `definedSchemaNode nm` — a DefinedSchemaNode atom named `nm`;
  * `plainNode ty nm` — any other non-executable atom;
  * `execLink id`    — an executable atom; its behaviour under `execute` is
    supplied by an environment `env : Nat → Option Value` (`none` models the
    C++ `nullptr` result of `h->execute(as, silent)`). -/
inductive Value where
  | numberNode (xs : List Double)
  | floatValue (xs : List Double)
  | setLink (oset : List Value)
  | definedSchemaNode (nm : String)
  | plainNode (ty : Nat) (nm : String)
  | execLink (id : Nat)

/-- `Value::is_atom()`: everything here is an atom except FloatValue. -/
def Value.is_atom : Value → Bool
  | .floatValue _ => false
  | _ => true

/-- `Atom::is_executable()`: of the atoms modelled, only `execLink` is. -/
def Value.is_executable : Value → Bool
  | .execLink _ => true
  | _ => false

/-- The SetLink unwrapping step inside `NumericFunctionLink::get_value`:
if the current value is a SetLink of arity exactly 1, replace it by its
single outgoing atom; any other value (including a SetLink of any other
arity) is kept as is. -/
def unwrapSet : Value → Value
  | .setLink [a] => a
  | v => v

/-- The structural-equality test `*red == *vptr` inside the loop of
`NumericFunctionLink::get_value`, specialised to the only shape `vptr` can
have when the test is reached: the loop guard has already established that
`vptr` is an executable atom, i.e. `execLink id`.  Content equality of atoms
therefore reduces to equality of the executable identity. -/
def Value.eqExec : Value → Nat → Bool
  | .execLink j, id => j = id
  | _, _ => false

/-- The `while (vptr->is_atom())` loop of `NumericFunctionLink::get_value`,
with an explicit fuel bound on the number of `execute` calls (the C++ loop
has no such bound; `none` means the loop did not finish within `fuel`
execution steps).  On normal exit it returns the resulting value together
with the number of `execute` calls performed.
Branch correspondence with the source:
  * a non-atom, or a non-executable atom, exits the loop at once (0 steps);
  * for an executable atom, `execute` is consulted: a null result returns
    the value held before the step; a result structurally equal to the
    current value returns the current value; otherwise the result, after
    SetLink-of-arity-1 unwrapping, becomes the current value. -/
def gvLoop (env : Nat → Option Value) : Nat → Value → Option (Value × Nat)
  | 0, .execLink _ => none
  | fuel + 1, .execLink id =>
    match env id with
    | none => some (.execLink id, 1)
    | some red =>
      if red.eqExec id then some (.execLink id, 1)
      else (gvLoop env fuel (unwrapSet red)).map (fun p => (p.1, p.2 + 1))
  | _, v => some (v, 0)

/-- `NumericFunctionLink::get_value`: resolve a DefinedSchemaNode through the
definition map `defs` (`DefineLink::get_definition`), then run the
execute-until-stable loop. -/
def get_value (env : Nat → Option Value) (defs : String → Value) (fuel : Nat)
    (vptr : Value) : Option (Value × Nat) :=
  match vptr with
  | .definedSchemaNode nm => gvLoop env fuel (defs nm)
  | v => gvLoop env fuel v

/-- The two numeric flavors distinguished by `NumericFunctionLink::apply_func`
through the out-parameter type of `get_vector`: the exact/discrete NumberNode
flavor and the approximate FloatValue flavor. -/
inductive NumFlavor where
  | number
  | floatv
deriving DecidableEq, Repr

/-- `NumericFunctionLink::get_vector`: return the backing numeric vector of a
NumberNode or FloatValue (together with which of the two it was), and `none`
(the C++ `nullptr`) for any other value. -/
def get_vector : Value → Option (List Double × NumFlavor)
  | .numberNode xs => some (xs, .number)
  | .floatValue xs => some (xs, .floatv)
  | _ => none

/-- Rebuild an output value of the given flavor, as the tail of both
`apply_func` overloads does with `createNumberNode` / `createFloatValue`. -/
def mkNumeric : NumFlavor → List Double → Value
  | .number, xs => .numberNode xs
  | .floatv, xs => .floatValue xs

/-- Unary `NumericFunctionLink::apply_func`: resolve the argument, extract its
numeric vector; a null or empty vector gives a null result; otherwise apply
`f` elementwise, producing a NumberNode if the input was a NumberNode and a
FloatValue otherwise.  The second component of the result pair is the
out-parameter `vx` (the resolved argument), which is always set.
The outer `Option` is fuel exhaustion inside `get_value` only. -/
def apply_func_unary (env : Nat → Option Value) (defs : String → Value)
    (fuel : Nat) (arg : Value) (f : Double → Double) :
    Option (Option Value × Value) :=
  match get_value env defs fuel arg with
  | none => none
  | some (vx, _) =>
    match get_vector vx with
    | none => some (none, vx)
    | some (xvec, vxtype) =>
      if xvec.length = 0 then some (none, vx)
      else
        let funvec := xvec.map f
        match vxtype with
        | .number => some (some (.numberNode funvec), vx)
        | .floatv => some (some (.floatValue funvec), vx)

/-- The broadcasting core of binary `NumericFunctionLink::apply_func`:
if `xvec` has size 1, combine its single element (`xvec->back()`) with every
element of `yvec`; else if `yvec` has size 1, symmetrically; else combine
pairwise up to the length of the shorter vector (`List.zip` truncates exactly
as the `i < min(size, size)` loop does). -/
def broadcast (f : Double → Double → Double) (xvec yvec : List Double) :
    List Double :=
  if xvec.length = 1 then
    yvec.map (fun y => f (xvec.getLastD 0) y)
  else if yvec.length = 1 then
    xvec.map (fun x => f x (yvec.getLastD 0))
  else
    (xvec.zip yvec).map (fun p => f p.1 p.2)

/-- Binary `NumericFunctionLink::apply_func`: resolve both operands, extract
both numeric vectors; if either is null or empty, push both resolved operands
onto the (initially empty) `reduction` side channel and return a null result;
otherwise broadcast `f` over the two vectors, producing a NumberNode exactly
when both operand vectors came from NumberNodes, and leave `reduction` empty.
Result: `(function result, final contents of the reduction side channel)`;
the outer `Option` is fuel exhaustion inside `get_value` only. -/
def apply_func_binary (env : Nat → Option Value) (defs : String → Value)
    (fuel : Nat) (arg0 arg1 : Value) (f : Double → Double → Double) :
    Option (Option Value × List Value) :=
  match get_value env defs fuel arg0 with
  | none => none
  | some (vx, _) =>
    match get_value env defs fuel arg1 with
    | none => none
    | some (vy, _) =>
      match get_vector vx, get_vector vy with
      | some (xvec, vxtype), some (yvec, vytype) =>
        if xvec.length = 0 ∨ yvec.length = 0 then
          some (none, [vx, vy])
        else
          let funvec := broadcast f xvec yvec
          if vxtype = NumFlavor.number ∧ vytype = NumFlavor.number then
            some (some (.numberNode funvec), [])
          else
            some (some (.floatValue funvec), [])
      | _, _ => some (none, [vx, vy])

/-- The type/category registry ("nameserver") is an external collaborator of
this repository: we model it as an explicit record of its two operations used
by the embedded code. -/
structure NameServer where
  isA : Nat → Nat → Bool
  getTypeName : Nat → String

/-- Type code for the FOREIGN_AST category (the concrete code is irrelevant;
only the `isA` relation of the registry consults it). -/
def FOREIGN_AST : Nat := 100

/-- Type code for the NUMERIC_FUNCTION_LINK category. -/
def NUMERIC_FUNCTION_LINK : Nat := 200

/-- A constructed ForeignAST object: outgoing set (handles abstracted as
numbers), type tag, and name. -/
structure ForeignAST where
  oset : List Nat
  ty : Nat
  name : String
deriving DecidableEq, Repr

/-- `ForeignAST::ForeignAST(const HandleSeq&&, Type)`: rejects (throws
InvalidParamException, modelled as `Except.error` carrying the message) any
type not satisfying `isA t FOREIGN_AST`. -/
def ForeignAST.ctor_oset (ns : NameServer) (oset : List Nat) (t : Nat) :
    Except String ForeignAST :=
  if ¬ ns.isA t FOREIGN_AST then
    .error ("Expecting an ForeignAST, got " ++ ns.getTypeName t)
  else
    .ok ⟨oset, t, ""⟩

/-- `ForeignAST::ForeignAST(Type)`: same category check as the outgoing-set
constructor. -/
def ForeignAST.ctor_type (ns : NameServer) (t : Nat) :
    Except String ForeignAST :=
  if ¬ ns.isA t FOREIGN_AST then
    .error ("Expecting an ForeignAST, got " ++ ns.getTypeName t)
  else
    .ok ⟨[], t, ""⟩

/-- `ForeignAST::ForeignAST(Type, const std::string&)`: the source performs
no category check here at all — it only stores the name. -/
def ForeignAST.ctor_named (_ns : NameServer) (t : Nat) (str : String) :
    Except String ForeignAST :=
  .ok ⟨[], t, str⟩

/-- `NumericFunctionLink::init`: the exact base type is rejected as private
and uninstantiable; any type outside the NUMERIC_FUNCTION_LINK family is
rejected as well; everything else is accepted. -/
def NumericFunctionLink.init (ns : NameServer) (tscope : Nat) :
    Except String Unit :=
  if tscope = NUMERIC_FUNCTION_LINK then
    .error "NumericOutLinks are private and cannot be instantiated."
  else if ¬ ns.isA tscope NUMERIC_FUNCTION_LINK then
    .error "Expecting an NumericFunctionLink"
  else
    .ok ()

/-- A Binding Map (GroundingMap): variable identity → bound term. -/
abbrev GroundingMap := List (Nat × Value)

/-- The pool of search-branch state cells.  `SatisfyMixin::cartesian_product`
receives its per-branch grounding maps by value ("copies, NOT references!"),
so aliasing is observable only through an explicit heap: each live branch
owns one cell holding its paired (variable-grounding, term-grounding) maps,
and a branch mutation rewrites exactly its own cell. -/
structure BranchHeap where
  cells : List (GroundingMap × GroundingMap)

/-- Read the pair of grounding maps owned by branch `r`. -/
def readBranch (st : BranchHeap) (r : Nat) : GroundingMap × GroundingMap :=
  st.cells.getD r ([], [])

/-- Modelled from the spec: the body of `SatisfyMixin::cartesian_product` is
not part of the sources (only its declaration in `SatisfyMixin.h`, with the
comment "copies, NOT references!", is).  Per the spec, every extension of a
parent branch "is produced as an independent copy of the parent branch's
Binding Map (and its paired matched-term map) before being mutated": a fresh
cell is allocated holding the extension applied to a copy of the parent's
pair, and the parent cell is left untouched. -/
def extendBranch (st : BranchHeap) (parent : Nat)
    (ext : GroundingMap × GroundingMap → GroundingMap × GroundingMap) :
    BranchHeap × Nat :=
  (⟨st.cells ++ [ext (readBranch st parent)]⟩, st.cells.length)

/-- Mutate branch `r` in place: only its own cell is rewritten. -/
def mutateBranch (st : BranchHeap) (r : Nat)
    (ext : GroundingMap × GroundingMap → GroundingMap × GroundingMap) :
    BranchHeap :=
  ⟨st.cells.set r (ext (readBranch st r))⟩

/-- Modelled from the spec: the branch-production step of
`SatisfyMixin::cartesian_product` (body not in the sources).  One surviving
extension per element of `exts` is produced from the parent branch, each as
an independent fresh copy; the list of cell identities of the produced
branches is returned alongside the grown heap. -/
def cartesian_product : BranchHeap → Nat →
    List (GroundingMap × GroundingMap → GroundingMap × GroundingMap) →
    BranchHeap × List Nat
  | st, _, [] => (st, [])
  | st, parent, ext :: rest =>
    let p := extendBranch st parent ext
    let q := cartesian_product p.1 parent rest
    (q.1, p.2 :: q.2)

/-- An execution environment in which every executable atom yields null. -/
def envNull : Nat → Option Value := fun _ => none

/-- An execution environment in which atom 7 evaluates to itself. -/
def envFix : Nat → Option Value :=
  fun i => if i = 7 then some (Value.execLink 7) else none

/-- An execution environment in which atom 1 evaluates to a singleton
SetLink wrapping a NumberNode. -/
def envSet : Nat → Option Value :=
  fun i => if i = 1 then some (Value.setLink [Value.numberNode [4]]) else none

/-- A trivial definition map for DefinedSchemaNodes. -/
def defsDemo : String → Value := fun _ => Value.numberNode []

/-- A registry in which no category belongs to any family. -/
def nsNone : NameServer := ⟨fun _ _ => false, fun _ => "UnknownType"⟩

/-- A registry in which each category is in its own family, and category 201
is additionally a proper subtype of category 200 (NUMERIC_FUNCTION_LINK). -/
def nsDemo : NameServer :=
  ⟨fun a b => a == b || (a == 201 && b == 200), fun _ => "SomeType"⟩

/-- A one-branch heap for exercising the branch-independence theorem. -/
def stDemo : BranchHeap := ⟨[([], [])]⟩

/-- An identity branch extension. -/
def extDemo : GroundingMap × GroundingMap → GroundingMap × GroundingMap :=
  fun p => p

/-- A branch mutation that installs a fresh binding. -/
def extMut : GroundingMap × GroundingMap → GroundingMap × GroundingMap :=
  fun _ => ([(5, Value.numberNode [2])], [])

/-- Elementwise description of the truncating pairwise branch: at every
index below both lengths, the zipped map holds the combination of the two
operand elements at that index. -/
theorem zip_map_getD (f : Double → Double → Double) :
    ∀ (xs ys : List Double) (i : Nat), i < xs.length → i < ys.length →
      ((xs.zip ys).map (fun p => f p.1 p.2)).getD i 0
        = f (xs.getD i 0) (ys.getD i 0)
  | _ :: _, _ :: _, 0, _, _ => rfl
  | _ :: xs, _ :: ys, i + 1, hx, hy =>
    zip_map_getD f xs ys i (Nat.lt_of_succ_lt_succ hx)
      (Nat.lt_of_succ_lt_succ hy)
  | [], _, i, hx, _ => absurd hx (Nat.not_lt_zero i)
  | _ :: _, [], i, _, hy => absurd hy (Nat.not_lt_zero i)

/-- C1: when both resolved operands of binary `apply_func` yield non-empty
numeric sequences, the call is not an error (it produces a value whose
backing sequence is `broadcast f xvec yvec`), and the broadcasting rule
holds: a length-1 sequence is broadcast against every element of the other
sequence (output has the other sequence's length), and two sequences of
length greater than 1 are combined pairwise up to the length of the shorter,
silently truncating the longer. -/
theorem apply_func_binary_broadcast (env : Nat → Option Value)
    (defs : String → Value) (fuel : Nat) (arg0 arg1 : Value)
    (f : Double → Double → Double) (vx vy : Value) (n0 n1 : Nat)
    (xvec yvec : List Double) (tx ty : NumFlavor)
    (h0 : get_value env defs fuel arg0 = some (vx, n0))
    (h1 : get_value env defs fuel arg1 = some (vy, n1))
    (hx : get_vector vx = some (xvec, tx))
    (hy : get_vector vy = some (yvec, ty))
    (hxe : xvec ≠ []) (hye : yvec ≠ []) :
    (∃ w fl, apply_func_binary env defs fuel arg0 arg1 f = some (some w, [])
        ∧ get_vector w = some (broadcast f xvec yvec, fl))
    ∧ (∀ x, xvec = [x] →
        broadcast f xvec yvec = yvec.map (fun y => f x y)
        ∧ (broadcast f xvec yvec).length = yvec.length)
    ∧ (∀ y, yvec = [y] → xvec.length ≠ 1 →
        broadcast f xvec yvec = xvec.map (fun x => f x y)
        ∧ (broadcast f xvec yvec).length = xvec.length)
    ∧ (1 < xvec.length → 1 < yvec.length →
        (broadcast f xvec yvec).length = min xvec.length yvec.length
        ∧ ∀ i, i < xvec.length → i < yvec.length →
            (broadcast f xvec yvec).getD i 0
              = f (xvec.getD i 0) (yvec.getD i 0)) := by
  have hxl : ¬ xvec.length = 0 := by simpa using hxe
  have hyl : ¬ yvec.length = 0 := by simpa using hye
  refine ⟨?_, ?_, ?_, ?_⟩
  · by_cases hf : tx = NumFlavor.number ∧ ty = NumFlavor.number
    · exact ⟨Value.numberNode (broadcast f xvec yvec), NumFlavor.number,
        by simp [apply_func_binary, h0, h1, hx, hy, hxl, hyl, hf], rfl⟩
    · exact ⟨Value.floatValue (broadcast f xvec yvec), NumFlavor.floatv,
        by simp [apply_func_binary, h0, h1, hx, hy, hxl, hyl, hf], rfl⟩
  · intro x hxx
    subst hxx
    exact ⟨by simp [broadcast], by simp [broadcast]⟩
  · intro y hyy hx1
    subst hyy
    exact ⟨by simp [broadcast, hx1], by simp [broadcast, hx1]⟩
  · intro hx1 hy1
    have hx1n : ¬ xvec.length = 1 := by omega
    have hy1n : ¬ yvec.length = 1 := by omega
    constructor
    · simp [broadcast, hx1n, hy1n]
    · intro i hi hj
      simp only [broadcast, if_neg hx1n, if_neg hy1n]
      exact zip_map_getD f xvec yvec i hi hj

theorem apply_func_binary_broadcast_inst :
    ∃ w fl,
      apply_func_binary envNull defsDemo 1 (Value.numberNode [5])
          (Value.numberNode [2, 3]) (fun a b => a + b)
        = some (some w, [])
      ∧ get_vector w
        = some (broadcast (fun a b => a + b) [5] [2, 3], fl) :=
  (apply_func_binary_broadcast envNull defsDemo 1 (Value.numberNode [5])
    (Value.numberNode [2, 3]) (fun a b => a + b) (Value.numberNode [5])
    (Value.numberNode [2, 3]) 0 0 [5] [2, 3] NumFlavor.number
    NumFlavor.number rfl rfl rfl rfl (by decide) (by decide)).1

/-- C4: unary `apply_func` emits its output in the same flavor as its
resolved numeric input (NumberNode in gives NumberNode out, FloatValue in
gives FloatValue out), and binary `apply_func` emits the NumberNode flavor
exactly when both resolved operands carried the NumberNode flavor, and the
FloatValue flavor otherwise. -/
theorem apply_func_flavor :
    (∀ (env : Nat → Option Value) (defs : String → Value) (fuel : Nat)
       (arg : Value) (f : Double → Double) (vx : Value) (n : Nat)
       (xvec : List Double) (tx : NumFlavor),
       get_value env defs fuel arg = some (vx, n) →
       get_vector vx = some (xvec, tx) →
       xvec ≠ [] →
       ∃ w, apply_func_unary env defs fuel arg f = some (some w, vx)
         ∧ get_vector w = some (xvec.map f, tx))
    ∧ ∀ (env : Nat → Option Value) (defs : String → Value) (fuel : Nat)
        (arg0 arg1 : Value) (f : Double → Double → Double) (vx vy : Value)
        (n0 n1 : Nat) (xvec yvec : List Double) (tx ty : NumFlavor),
        get_value env defs fuel arg0 = some (vx, n0) →
        get_value env defs fuel arg1 = some (vy, n1) →
        get_vector vx = some (xvec, tx) →
        get_vector vy = some (yvec, ty) →
        xvec ≠ [] → yvec ≠ [] →
        ∃ w fl,
          apply_func_binary env defs fuel arg0 arg1 f = some (some w, [])
          ∧ get_vector w = some (broadcast f xvec yvec, fl)
          ∧ (fl = NumFlavor.number
              ↔ tx = NumFlavor.number ∧ ty = NumFlavor.number) := by
  constructor
  · intro env defs fuel arg f vx n xvec tx h0 hx hxe
    have hxl : ¬ xvec.length = 0 := by simpa using hxe
    match tx with
    | .number =>
      exact ⟨Value.numberNode (xvec.map f),
        by simp [apply_func_unary, h0, hx, hxl], rfl⟩
    | .floatv =>
      exact ⟨Value.floatValue (xvec.map f),
        by simp [apply_func_unary, h0, hx, hxl], rfl⟩
  · intro env defs fuel arg0 arg1 f vx vy n0 n1 xvec yvec tx ty h0 h1 hx hy
      hxe hye
    have hxl : ¬ xvec.length = 0 := by simpa using hxe
    have hyl : ¬ yvec.length = 0 := by simpa using hye
    by_cases hf : tx = NumFlavor.number ∧ ty = NumFlavor.number
    · exact ⟨Value.numberNode (broadcast f xvec yvec), NumFlavor.number,
        by simp [apply_func_binary, h0, h1, hx, hy, hxl, hyl, hf], rfl,
        by simp [hf]⟩
    · exact ⟨Value.floatValue (broadcast f xvec yvec), NumFlavor.floatv,
        by simp [apply_func_binary, h0, h1, hx, hy, hxl, hyl, hf], rfl,
        iff_of_false (by decide) hf⟩

theorem apply_func_flavor_inst :
    (∃ w, apply_func_unary envNull defsDemo 1 (Value.floatValue [1, 2])
            (fun a => a + 1)
          = some (some w, Value.floatValue [1, 2])
        ∧ get_vector w = some (([1, 2] : List Double).map (fun a => a + 1),
            NumFlavor.floatv))
    ∧ ∃ w fl,
        apply_func_binary envNull defsDemo 1 (Value.floatValue [1, 2])
            (Value.numberNode [3]) (fun a b => a + b)
          = some (some w, [])
        ∧ get_vector w
          = some (broadcast (fun a b => a + b) [1, 2] [3], fl)
        ∧ (fl = NumFlavor.number
            ↔ NumFlavor.floatv = NumFlavor.number
              ∧ NumFlavor.number = NumFlavor.number) :=
  ⟨apply_func_flavor.1 envNull defsDemo 1 (Value.floatValue [1, 2])
     (fun a => a + 1) (Value.floatValue [1, 2]) 0 [1, 2] NumFlavor.floatv
     rfl rfl (by decide),
   apply_func_flavor.2 envNull defsDemo 1 (Value.floatValue [1, 2])
     (Value.numberNode [3]) (fun a b => a + b) (Value.floatValue [1, 2])
     (Value.numberNode [3]) 0 0 [1, 2] [3] NumFlavor.floatv
     NumFlavor.number rfl rfl rfl rfl (by decide) (by decide)⟩

/-- C3: a value that is an executable atom whose evaluation returns a result
structurally equal to the value itself makes `get_value` stop after exactly
one evaluation step, returning the original value unchanged. -/
theorem get_value_fixed_point (env : Nat → Option Value)
    (defs : String → Value) (fuel id : Nat)
    (h : env id = some (Value.execLink id)) :
    get_value env defs (fuel + 1) (Value.execLink id)
      = some (Value.execLink id, 1) := by
  simp [get_value, gvLoop, h, Value.eqExec]

theorem get_value_fixed_point_inst :
    get_value envFix defsDemo 1 (Value.execLink 7)
      = some (Value.execLink 7, 1) :=
  get_value_fixed_point envFix defsDemo 0 7 rfl

/-- C6: when an evaluation step inside `get_value` produces no result (a
null outcome), the loop stops and returns the value held before that step;
no error is signalled. -/
theorem get_value_null_result_stops (env : Nat → Option Value)
    (defs : String → Value) (fuel id : Nat) (h : env id = none) :
    get_value env defs (fuel + 1) (Value.execLink id)
      = some (Value.execLink id, 1) := by
  simp [get_value, gvLoop, h]

theorem get_value_null_result_stops_inst :
    get_value envNull defsDemo 1 (Value.execLink 3)
      = some (Value.execLink 3, 1) :=
  get_value_null_result_stops envNull defsDemo 0 3 rfl

/-- C7: inside `get_value`, an evaluation result found unequal to the
previous value is passed through `unwrapSet` before the next iteration:
a SetLink of arity exactly 1 is transparently replaced by its single
element, while a SetLink of any other arity is kept as is. -/
theorem get_value_singleton_set_unwrap (env : Nat → Option Value)
    (defs : String → Value) (fuel id : Nat) (red : Value)
    (h : env id = some red) (hne : red.eqExec id = false) :
    get_value env defs (fuel + 1) (Value.execLink id)
      = (gvLoop env fuel (unwrapSet red)).map (fun p => (p.1, p.2 + 1))
    ∧ (∀ w, unwrapSet (Value.setLink [w]) = w)
    ∧ ∀ l, l.length ≠ 1 → unwrapSet (Value.setLink l) = Value.setLink l := by
  refine ⟨by simp [get_value, gvLoop, h, hne], fun w => rfl, ?_⟩
  intro l hl
  match l with
  | [] => rfl
  | [a] => exact absurd rfl hl
  | a :: b :: t => rfl

theorem get_value_singleton_set_unwrap_inst :
    get_value envSet defsDemo 2 (Value.execLink 1)
      = (gvLoop envSet 1
          (unwrapSet (Value.setLink [Value.numberNode [4]]))).map
            (fun p => (p.1, p.2 + 1)) :=
  (get_value_singleton_set_unwrap envSet defsDemo 1 1
    (Value.setLink [Value.numberNode [4]]) rfl rfl).1

/-- C10: `NumericFunctionLink::init` rejects the abstract base category
NUMERIC_FUNCTION_LINK itself with a construction error, even though that
category trivially belongs to the required family; every proper subtype in
the family is accepted. -/
theorem numeric_function_link_base_rejected (ns : NameServer)
    (_hbase : ns.isA NUMERIC_FUNCTION_LINK NUMERIC_FUNCTION_LINK = true) :
    NumericFunctionLink.init ns NUMERIC_FUNCTION_LINK
        = Except.error "NumericOutLinks are private and cannot be instantiated."
    ∧ ∀ t, t ≠ NUMERIC_FUNCTION_LINK → ns.isA t NUMERIC_FUNCTION_LINK = true →
        NumericFunctionLink.init ns t = Except.ok () := by
  refine ⟨by simp [NumericFunctionLink.init], ?_⟩
  intro t ht hisa
  simp [NumericFunctionLink.init, ht, hisa]

theorem numeric_function_link_base_rejected_inst :
    NumericFunctionLink.init nsDemo NUMERIC_FUNCTION_LINK
        = Except.error "NumericOutLinks are private and cannot be instantiated."
    ∧ NumericFunctionLink.init nsDemo 201 = Except.ok () :=
  ⟨(numeric_function_link_base_rejected nsDemo (by decide)).1,
   (numeric_function_link_base_rejected nsDemo (by decide)).2 201
     (by decide) (by decide)⟩

/-- Every branch cell produced by `cartesian_product` is freshly allocated:
its identity is at least the size of the incoming heap. -/
theorem cartesian_product_refs_ge :
    ∀ (exts : List (GroundingMap × GroundingMap → GroundingMap × GroundingMap))
      (st : BranchHeap) (parent r : Nat),
      r ∈ (cartesian_product st parent exts).2 → st.cells.length ≤ r := by
  intro exts
  induction exts with
  | nil =>
    intro st parent r hr
    simp [cartesian_product] at hr
  | cons ext rest ih =>
    intro st parent r hr
    simp only [cartesian_product, extendBranch] at hr
    rcases List.mem_cons.mp hr with hr | hr
    · omega
    · have := ih ⟨st.cells ++ [ext (readBranch st parent)]⟩ parent r hr
      simp at this
      omega

/-- The cell identities produced by `cartesian_product` are strictly
increasing, hence pairwise distinct: no two branches share a cell. -/
theorem cartesian_product_refs_sorted :
    ∀ (exts : List (GroundingMap × GroundingMap → GroundingMap × GroundingMap))
      (st : BranchHeap) (parent : Nat),
      ((cartesian_product st parent exts).2).Pairwise (fun a b => a < b) := by
  intro exts
  induction exts with
  | nil =>
    intro st parent
    simp [cartesian_product]
  | cons ext rest ih =>
    intro st parent
    simp only [cartesian_product, extendBranch]
    refine List.pairwise_cons.mpr ⟨?_, ih _ _⟩
    intro r hr
    have := cartesian_product_refs_ge rest
      ⟨st.cells ++ [ext (readBranch st parent)]⟩ parent r hr
    simp at this
    omega

/-- In a strictly increasing list of numbers, entries at distinct valid
positions are distinct. -/
theorem getD_of_sorted_ne (l : List Nat) (hp : l.Pairwise (fun a b => a < b))
    (i j : Nat) (hi : i < l.length) (hj : j < l.length) (hij : i ≠ j) :
    l.getD i 0 ≠ l.getD j 0 := by
  have hgi : l.getD i 0 = l[i] := by
    simp [List.getD_eq_getElem?_getD, List.getElem?_eq_getElem hi]
  have hgj : l.getD j 0 = l[j] := by
    simp [List.getD_eq_getElem?_getD, List.getElem?_eq_getElem hj]
  rw [hgi, hgj]
  rcases Nat.lt_or_ge i j with h | h
  · exact Nat.ne_of_lt (List.pairwise_iff_getElem.mp hp i j hi hj h)
  · have hji : j < i := Nat.lt_of_le_of_ne h (Ne.symm hij)
    exact (Nat.ne_of_lt (List.pairwise_iff_getElem.mp hp j i hj hi hji)).symm

/-- Writing one list cell leaves every other cell unchanged. -/
theorem getD_set_ne {α : Type} (l : List α) (a d : α) (ri rj : Nat)
    (h : ri ≠ rj) : (l.set ri a).getD rj d = l.getD rj d := by
  simp [List.getD_eq_getElem?_getD, List.getElem?_set_ne h]

/-- C8: the branches produced by `cartesian_product` own pairwise distinct
state cells (independent copies, never shared by reference), so mutating one
surviving branch's grounding-map pair leaves every other branch's pair
unchanged. -/
theorem cartesian_product_branch_independence (st : BranchHeap)
    (parent : Nat)
    (exts : List (GroundingMap × GroundingMap → GroundingMap × GroundingMap))
    (ext2 : GroundingMap × GroundingMap → GroundingMap × GroundingMap)
    (i j : Nat)
    (hi : i < (cartesian_product st parent exts).2.length)
    (hj : j < (cartesian_product st parent exts).2.length)
    (hij : i ≠ j) :
    (cartesian_product st parent exts).2.getD i 0
        ≠ (cartesian_product st parent exts).2.getD j 0
    ∧ readBranch
        (mutateBranch (cartesian_product st parent exts).1
          ((cartesian_product st parent exts).2.getD i 0) ext2)
        ((cartesian_product st parent exts).2.getD j 0)
      = readBranch (cartesian_product st parent exts).1
          ((cartesian_product st parent exts).2.getD j 0) := by
  have hne := getD_of_sorted_ne _
    (cartesian_product_refs_sorted exts st parent) i j hi hj hij
  refine ⟨hne, ?_⟩
  simp only [readBranch, mutateBranch]
  exact getD_set_ne _ _ _ _ _ hne

theorem cartesian_product_branch_independence_inst :
    (cartesian_product stDemo 0 [extDemo, extDemo]).2.getD 0 0
        ≠ (cartesian_product stDemo 0 [extDemo, extDemo]).2.getD 1 0
    ∧ readBranch
        (mutateBranch (cartesian_product stDemo 0 [extDemo, extDemo]).1
          ((cartesian_product stDemo 0 [extDemo, extDemo]).2.getD 0 0)
          extMut)
        ((cartesian_product stDemo 0 [extDemo, extDemo]).2.getD 1 0)
      = readBranch (cartesian_product stDemo 0 [extDemo, extDemo]).1
          ((cartesian_product stDemo 0 [extDemo, extDemo]).2.getD 1 0) :=
  cartesian_product_branch_independence stDemo 0 [extDemo, extDemo] extMut
    0 1 (by decide) (by decide) (by decide)

/-- C2 counterexample: the `(Type, std::string)` constructor of ForeignAST
performs no category-family check at all — with a registry in which category
0 does not belong to the FOREIGN_AST family, construction nevertheless
succeeds and yields a usable object, so "every constructor signals a
construction error" is false. -/
theorem foreign_ast_named_ctor_skips_check :
    ForeignAST.ctor_named nsNone 0 "foo" = Except.ok ⟨[], 0, "foo"⟩
    ∧ nsNone.isA 0 FOREIGN_AST = false :=
  ⟨rfl, rfl⟩

/-- C2 amended: the outgoing-set constructor and the bare-type constructor of
ForeignAST both signal a construction error naming the expected versus actual
category whenever the category is outside the FOREIGN_AST family; the
`(Type, std::string)` constructor performs no category check and always
succeeds. -/
theorem foreign_ast_ctor_category_check (ns : NameServer) (oset : List Nat)
    (t : Nat) (s : String) (h : ns.isA t FOREIGN_AST = false) :
    ForeignAST.ctor_oset ns oset t
        = Except.error ("Expecting an ForeignAST, got " ++ ns.getTypeName t)
    ∧ ForeignAST.ctor_type ns t
        = Except.error ("Expecting an ForeignAST, got " ++ ns.getTypeName t)
    ∧ ForeignAST.ctor_named ns t s = Except.ok ⟨[], t, s⟩ := by
  refine ⟨?_, ?_, rfl⟩ <;>
    simp [ForeignAST.ctor_oset, ForeignAST.ctor_type, h]

theorem foreign_ast_ctor_category_check_inst :
    ForeignAST.ctor_oset nsNone [] 0
        = Except.error ("Expecting an ForeignAST, got " ++ nsNone.getTypeName 0)
    ∧ ForeignAST.ctor_type nsNone 0
        = Except.error ("Expecting an ForeignAST, got " ++ nsNone.getTypeName 0)
    ∧ ForeignAST.ctor_named nsNone 0 "x" = Except.ok ⟨[], 0, "x"⟩ :=
  foreign_ast_ctor_category_check nsNone [] 0 "x" rfl

/-- C5: when numeric-sequence extraction fails for either resolved operand,
binary `apply_func` returns a null result (no exception is modelled or
needed) and delivers both partially-resolved operands, in order, through the
`reduction` side-channel sequence. -/
theorem apply_func_binary_not_numeric (env : Nat → Option Value)
    (defs : String → Value) (fuel : Nat) (arg0 arg1 : Value)
    (f : Double → Double → Double) (vx vy : Value) (n0 n1 : Nat)
    (h0 : get_value env defs fuel arg0 = some (vx, n0))
    (h1 : get_value env defs fuel arg1 = some (vy, n1))
    (hnn : get_vector vx = none ∨ get_vector vy = none) :
    apply_func_binary env defs fuel arg0 arg1 f = some (none, [vx, vy]) := by
  rcases hnn with h | h
  · simp [apply_func_binary, h0, h1, h]
  · rcases hx : get_vector vx with _ | p
    · simp [apply_func_binary, h0, h1, hx]
    · simp [apply_func_binary, h0, h1, hx, h]

theorem apply_func_binary_not_numeric_inst :
    apply_func_binary envNull defsDemo 1 (Value.plainNode 0 "foo")
        (Value.numberNode [1]) (fun a b => a + b)
      = some (none, [Value.plainNode 0 "foo", Value.numberNode [1]]) :=
  apply_func_binary_not_numeric envNull defsDemo 1
    (Value.plainNode 0 "foo") (Value.numberNode [1]) (fun a b => a + b)
    (Value.plainNode 0 "foo") (Value.numberNode [1]) 0 0 rfl rfl
    (Or.inl rfl)

/-- C9: a resolved operand whose backing numeric sequence is empty is treated
exactly like a non-numeric operand: unary `apply_func` returns a null result,
and binary `apply_func` returns a null result while still delivering both
resolved operands through the side channel — even though `get_vector`
extraction itself succeeds on the operand. -/
theorem apply_func_empty_vector_null :
    (∀ (env : Nat → Option Value) (defs : String → Value) (fuel : Nat)
       (arg : Value) (f : Double → Double) (vx : Value) (n : Nat)
       (tx : NumFlavor),
       get_value env defs fuel arg = some (vx, n) →
       get_vector vx = some ([], tx) →
       apply_func_unary env defs fuel arg f = some (none, vx))
    ∧ ∀ (env : Nat → Option Value) (defs : String → Value) (fuel : Nat)
        (arg0 arg1 : Value) (f : Double → Double → Double) (vx vy : Value)
        (n0 n1 : Nat) (xv yv : List Double) (tx ty : NumFlavor),
        get_value env defs fuel arg0 = some (vx, n0) →
        get_value env defs fuel arg1 = some (vy, n1) →
        get_vector vx = some (xv, tx) →
        get_vector vy = some (yv, ty) →
        xv = [] ∨ yv = [] →
        apply_func_binary env defs fuel arg0 arg1 f
          = some (none, [vx, vy]) := by
  constructor
  · intro env defs fuel arg f vx n tx h0 hx
    simp [apply_func_unary, h0, hx]
  · intro env defs fuel arg0 arg1 f vx vy n0 n1 xv yv tx ty h0 h1 hx hy he
    rcases he with he | he <;> subst he <;>
      simp [apply_func_binary, h0, h1, hx, hy]

theorem apply_func_empty_vector_null_inst :
    apply_func_unary envNull defsDemo 1 (Value.floatValue [])
        (fun a => a + 1)
      = some (none, Value.floatValue [])
    ∧ apply_func_binary envNull defsDemo 1 (Value.numberNode [])
        (Value.numberNode [1]) (fun a b => a + b)
      = some (none, [Value.numberNode [], Value.numberNode [1]]) :=
  ⟨apply_func_empty_vector_null.1 envNull defsDemo 1 (Value.floatValue [])
     (fun a => a + 1) (Value.floatValue []) 0 NumFlavor.floatv rfl rfl,
   apply_func_empty_vector_null.2 envNull defsDemo 1 (Value.numberNode [])
     (Value.numberNode [1]) (fun a b => a + b) (Value.numberNode [])
     (Value.numberNode [1]) 0 0 [] [1] NumFlavor.number NumFlavor.number
     rfl rfl rfl rfl (Or.inl rfl)⟩
